import Mathlib

/-!
Verification of the reverse-DCF calculation engine (`src/dcf-engine.js`).

The engine is pure arithmetic on JavaScript numbers: additions,
multiplications, divisions, integer powers, absolute values, comparisons
and a final round-to-2-decimals.  We embed it over `ℚ` (exact rational
arithmetic, the idealisation of the floating-point source), with the
forecast horizon as an integer `ℤ` (the engine treats it as a count of
periods) and the "null / undefined" sentinel of the solver as `Option`.
Decimal literals of the source (`0.0001`, `0.00001`) become the exact
rationals they denote.
-/

namespace ValueLens

/-- JavaScript `Math.round` : round half toward positive infinity,
`Math.round x = ⌊x + 1/2⌋`. -/
def jsRound (x : ℚ) : ℤ := ⌊x + 1/2⌋

/-- `Math.round(x * 100) / 100` as the engine uses it: round to two
decimal places. -/
def roundTo2 (x : ℚ) : ℚ := (jsRound (x * 100) : ℚ) / 100

/-- `calculateImpliedEquityValue` from `src/dcf-engine.js`.
Terminal-PE reverse DCF valuation: guard returning 0 on degenerate
inputs, then the present value of the forecast-period earnings stream
(closed-form growing annuity, or termwise summation when the discount
and growth rates nearly coincide) plus the discounted terminal value. -/
def calculateImpliedEquityValue (currentPAT growthRatePct discountRatePct : ℚ)
    (forecastPeriod : ℤ) (exitPE : ℚ) : ℚ :=
  if currentPAT ≤ 0 ∨ exitPE ≤ 0 ∨ forecastPeriod ≤ 0 then 0
  else
    let g := growthRatePct / 100
    let r := discountRatePct / 100
    let n := forecastPeriod.toNat
    let pvEarnings :=
      if |r - g| < 1/10000 then
        ∑ t in Finset.Icc 1 n, currentPAT * (1 + g) ^ t / (1 + r) ^ t
      else
        currentPAT * (1 + g) * ((1 - (1 + g) ^ n * ((1 + r) ^ n)⁻¹) / (r - g))
    let terminalPAT := currentPAT * (1 + g) ^ n
    let terminalValue := terminalPAT * exitPE / (1 + r) ^ n
    pvEarnings + terminalValue

/-- The bisection loop of `solveImpliedGrowthRate`, fuel-indexed: the
source runs `for (i = 0; i < 500; i++)` and falls back to the midpoint
of the final bracket when the fuel is exhausted. -/
def bisectLoop (currentPAT discountRatePct : ℚ) (forecastPeriod : ℤ)
    (exitPE target tolerance : ℚ) : ℕ → ℚ → ℚ → ℚ
  | 0, low, high => roundTo2 ((low + high) / 2)
  | fuel + 1, low, high =>
    let mid := (low + high) / 2
    let val := calculateImpliedEquityValue currentPAT mid discountRatePct forecastPeriod exitPE
    if |val - target| < tolerance then roundTo2 mid
    else if val < target then
      bisectLoop currentPAT discountRatePct forecastPeriod exitPE target tolerance fuel mid high
    else
      bisectLoop currentPAT discountRatePct forecastPeriod exitPE target tolerance fuel low mid

/-- `solveImpliedGrowthRate` from `src/dcf-engine.js`: bisection on the
growth rate over the bracket `[-90, 200]` (percent), at most 500
iterations, relative tolerance `marketCap * 0.00001`, answer rounded to
two decimals; `null` (here `none`) on degenerate inputs. -/
def solveImpliedGrowthRate (currentPAT marketCap discountRatePct : ℚ)
    (forecastPeriod : ℤ) (exitPE : ℚ) : Option ℚ :=
  if currentPAT ≤ 0 ∨ marketCap ≤ 0 ∨ exitPE ≤ 0 then none
  else some (bisectLoop currentPAT discountRatePct forecastPeriod exitPE
    marketCap (marketCap * (1/100000)) 500 (-90) 200)

/-- `getSignal` from `src/dcf-engine.js`; the `null`/`undefined`
expectation gap is modelled as `none`. -/
def getSignal : Option ℚ → String
  | none => "N/A"
  | some expectationGap =>
    if expectationGap > 5 then "Strong Buy"
    else if expectationGap > 2 then "Buy"
    else if expectationGap < -5 then "Sell"
    else if expectationGap < -2 then "Caution"
    else "Hold"

/-- `ys` starts with the pattern `pat` (character-by-character prefix test). -/
def leadsWith : List Char → List Char → Bool
  | _, [] => true
  | [], _ :: _ => false
  | a :: as, b :: bs => a == b && leadsWith as bs

/-- JavaScript `String.prototype.includes` on the character lists:
`containsSeq s pat` holds when `pat` occurs contiguously inside `s`. -/
def containsSeq : List Char → List Char → Bool
  | [], pat => pat.isEmpty
  | a :: as, pat => leadsWith (a :: as) pat || containsSeq as pat

/-- The `SECTOR_PE` table of `src/dcf-engine.js`, in source (insertion)
order; JavaScript `Object.entries` iterates in that order. -/
def SECTOR_PE : List (String × ℚ) :=
  [("fmcg", 45), ("it", 22), ("information technology", 22), ("pharma", 30),
   ("pharmaceutical", 30), ("healthcare", 30), ("bank", 15), ("banking", 15),
   ("nbfc", 20), ("financial", 18), ("insurance", 35), ("auto", 20),
   ("automobile", 20), ("chemical", 25), ("capital goods", 25), ("cement", 25),
   ("construction", 18), ("consumer durable", 35), ("consumer", 30),
   ("diversified", 20), ("energy", 12), ("fertilizer", 15),
   ("infrastructure", 15), ("logistics", 25), ("media", 25),
   ("entertainment", 25), ("metal", 12), ("mining", 12), ("oil", 10),
   ("gas", 10), ("petroleum", 10), ("power", 10), ("utility", 10),
   ("real estate", 15), ("realty", 15), ("retail", 40), ("sugar", 15),
   ("telecom", 20), ("textile", 15), ("tourism", 25), ("hotel", 25),
   ("hospitality", 25), ("trading", 12), ("manufacturing", 22),
   ("technology", 30), ("software", 25)]

/-- The record returned by `getDefaultAssumptions`. -/
structure AssumptionSet where
  forecastYears : ℚ
  discountRate : ℚ
  terminalGrowth : ℚ
  exitPE : ℚ
  expectedPatCagr : ℚ
  category : String
  deriving Repr, DecidableEq

/-- The market-cap bucketing if-chain of `getDefaultAssumptions`
(`src/dcf-engine.js` lines 103–115), as the tuple
(forecastYears, discountRate, patCagr, category). -/
def mcapBucket (marketCapCr : ℚ) : ℚ × ℚ × ℚ × String :=
  if marketCapCr < 500 then (20, 20, 25, "Micro Cap")
  else if marketCapCr < 5000 then (20, 20, 25, "Small Cap")
  else if marketCapCr < 20000 then (15, 18, 18, "Mid Cap")
  else if marketCapCr < 50000 then (15, 16, 15, "Large-Mid Cap")
  else if marketCapCr < 200000 then (10, 15, 12, "Large Cap")
  else (10, 13, 10, "Mega Cap")

/-- The sector exit-multiple lookup of `getDefaultAssumptions`
(`src/dcf-engine.js` lines 131–137): default 20, and for a non-empty
sector label the first entry of `SECTOR_PE` whose key occurs inside the
lower-cased label (the empty string is falsy in the source's
`if (sector)` guard). -/
def sectorExitPE (sector : String) : ℚ :=
  if sector = "" then 20
  else
    match SECTOR_PE.find? (fun kv => containsSeq (sector.data.map Char.toLower) kv.1.data) with
    | some kv => kv.2
    | none => 20

/-- `getDefaultAssumptions` from `src/dcf-engine.js`: market-cap
bucketing into six bands plus the sector exit-multiple lookup. -/
def getDefaultAssumptions (marketCapCr : ℚ) (sector : String) : AssumptionSet :=
  { forecastYears := (mcapBucket marketCapCr).1
    discountRate := (mcapBucket marketCapCr).2.1
    terminalGrowth := 4
    exitPE := sectorExitPE sector
    expectedPatCagr := (mcapBucket marketCapCr).2.2.1
    category := (mcapBucket marketCapCr).2.2.2 }

/-! ### Specification-side definitions

These restate the valuation components and the solver loop in the words
of the specification, to be compared with the source embedding above. -/

/-- The forecast-period component in closed growing-annuity form, as the
specification words it: `PAT·(1+g)·[1 − (1+g)^n·(1+r)^(−n)] / (r − g)`. -/
def specForecastClosed (PAT g r : ℚ) (n : ℕ) : ℚ :=
  PAT * (1 + g) * ((1 - (1 + g) ^ n * ((1 + r) ^ n)⁻¹) / (r - g))

/-- The forecast-period component by direct termwise summation, as the
specification words it: `Σ_{t=1..n} PAT·(1+g)^t / (1+r)^t`. -/
def specForecastSum (PAT g r : ℚ) (n : ℕ) : ℚ :=
  ∑ t in Finset.Icc 1 n, PAT * (1 + g) ^ t / (1 + r) ^ t

/-- The terminal-value component as the specification words it:
`(PAT·(1+g)^n·exitMultiple) / (1+r)^n`. -/
def specTerminal (PAT g r : ℚ) (n : ℕ) (exitMultiple : ℚ) : ℚ :=
  PAT * (1 + g) ^ n * exitMultiple / (1 + r) ^ n

/-- The Growth Solver's bisection as the specification words it: at most
the given number of iterations from the bracket `(low, high)`; at each
step `mid = (low+high)/2`; immediate return of `mid` rounded to two
decimals when the valuation at `mid` is within `target·1e-5` of the
target; otherwise raise `low` to `mid` when the value is below the
target and lower `high` to `mid` when it is not; on exhaustion, the
midpoint of the final bracket rounded to two decimals. -/
def specBisection (PAT r : ℚ) (n : ℤ) (exitMultiple target : ℚ) : ℕ → ℚ → ℚ → ℚ
  | 0, low, high => roundTo2 ((low + high) / 2)
  | fuel + 1, low, high =>
    let mid := (low + high) / 2
    if |calculateImpliedEquityValue PAT mid r n exitMultiple - target| < target * (1/100000) then
      roundTo2 mid
    else if calculateImpliedEquityValue PAT mid r n exitMultiple < target then
      specBisection PAT r n exitMultiple target fuel mid high
    else
      specBisection PAT r n exitMultiple target fuel low mid

/-- The bisection loop with the final rounding stripped: returns the
exact midpoint accepted by the tolerance test, or `none` when the
iteration budget runs out.  Used to analyse the solver's round-trip
behaviour before the 2-decimal rounding. -/
def bisectLoopExact (currentPAT discountRatePct : ℚ) (forecastPeriod : ℤ)
    (exitPE target tolerance : ℚ) : ℕ → ℚ → ℚ → Option ℚ
  | 0, _, _ => none
  | fuel + 1, low, high =>
    let mid := (low + high) / 2
    let val := calculateImpliedEquityValue currentPAT mid discountRatePct forecastPeriod exitPE
    if |val - target| < tolerance then some mid
    else if val < target then
      bisectLoopExact currentPAT discountRatePct forecastPeriod exitPE target tolerance fuel mid high
    else
      bisectLoopExact currentPAT discountRatePct forecastPeriod exitPE target tolerance fuel low mid

/-! ### Claim theorems -/

/-- C1: for positive profit, positive exit multiple and an integer
horizon `n ≥ 1`, `calculateImpliedEquityValue` returns the sum of the
forecast-period component — the closed-form growing annuity when
`|r − g| ≥ 1e-4` and the direct termwise sum when `|r − g| < 1e-4` —
and the discounted terminal component, with no rounding applied. -/
theorem claim1_valuation_formula (PAT gPct rPct : ℚ) (n : ℤ) (pe : ℚ)
    (hPAT : 0 < PAT) (hpe : 0 < pe) (hn : 1 ≤ n) :
    calculateImpliedEquityValue PAT gPct rPct n pe =
      (if |rPct / 100 - gPct / 100| < 1/10000
        then specForecastSum PAT (gPct / 100) (rPct / 100) n.toNat
        else specForecastClosed PAT (gPct / 100) (rPct / 100) n.toNat)
      + specTerminal PAT (gPct / 100) (rPct / 100) n.toNat pe := by
  unfold calculateImpliedEquityValue
  rw [if_neg (by push_neg; exact ⟨hPAT, hpe, by omega⟩)]
  rfl

/-- Witness for C1 at profit 1, growth 10 %, discount 15 %, horizon 1,
exit multiple 2. -/
theorem claim1_valuation_formula_witness :
    calculateImpliedEquityValue 1 10 15 1 2 =
      (if |(15:ℚ) / 100 - 10 / 100| < 1/10000
        then specForecastSum 1 (10 / 100) (15 / 100) (1:ℤ).toNat
        else specForecastClosed 1 (10 / 100) (15 / 100) (1:ℤ).toNat)
      + specTerminal 1 (10 / 100) (15 / 100) (1:ℤ).toNat 2 :=
  claim1_valuation_formula 1 10 15 1 2 (by norm_num) (by norm_num) (by norm_num)

/-- C5: on degenerate inputs (non-positive profit, exit multiple or
horizon) the valuation returns exactly 0 regardless of the remaining
arguments; the embedding is a total function, so no error is raised. -/
theorem claim5_degenerate_inputs_zero (p g r : ℚ) (n : ℤ) (pe : ℚ)
    (h : p ≤ 0 ∨ pe ≤ 0 ∨ n ≤ 0) :
    calculateImpliedEquityValue p g r n pe = 0 := by
  unfold calculateImpliedEquityValue
  rw [if_pos h]

/-- Witness for C5 at zero profit. -/
theorem claim5_degenerate_inputs_zero_witness :
    calculateImpliedEquityValue 0 7 12 10 20 = 0 :=
  claim5_degenerate_inputs_zero 0 7 12 10 20 (Or.inl le_rfl)

/-- C6: the solver returns the no-value sentinel `none` exactly when
`currentPAT ≤ 0` or `marketCap ≤ 0` or `exitPE ≤ 0`; on every other
input it returns a numeric answer, and the embedding is a total
function, so no error is raised. -/
theorem claim6_solver_sentinel_iff (p t r : ℚ) (n : ℤ) (pe : ℚ) :
    solveImpliedGrowthRate p t r n pe = none ↔ (p ≤ 0 ∨ t ≤ 0 ∨ pe ≤ 0) := by
  unfold solveImpliedGrowthRate
  split <;> simp_all

/-- C8 counterexample: the claim asserts a gap of exactly 5.0 yields
"Hold", but the source checks `expectationGap > 2` right after
`expectationGap > 5`, so a gap of exactly 5.0 falls into the Buy band. -/
theorem claim8_boundary_cex :
    getSignal (some 5) = "Buy" ∧ getSignal (some 5) ≠ "Hold" := by
  constructor <;> decide

/-- C8 (amended): a gap of exactly 5.0 yields "Buy" (the `> 2` band,
since `> 5` is strict); 5.01 yields "Strong Buy", −2.0 yields "Hold",
−2.01 yields "Caution"; and the bands gap > 5 → Strong Buy,
gap > 2 → Buy, gap < −5 → Sell, gap < −2 → Caution, otherwise Hold,
undefined gap → N/A, are evaluated in priority order. -/
theorem claim8_signal_bands :
    getSignal (some 5) = "Buy" ∧
    getSignal (some (501/100)) = "Strong Buy" ∧
    getSignal (some (-2)) = "Hold" ∧
    getSignal (some (-201/100)) = "Caution" ∧
    getSignal none = "N/A" ∧
    (∀ q : ℚ, 5 < q → getSignal (some q) = "Strong Buy") ∧
    (∀ q : ℚ, 2 < q → q ≤ 5 → getSignal (some q) = "Buy") ∧
    (∀ q : ℚ, q < -5 → getSignal (some q) = "Sell") ∧
    (∀ q : ℚ, -5 ≤ q → q < -2 → getSignal (some q) = "Caution") ∧
    (∀ q : ℚ, -2 ≤ q → q ≤ 2 → getSignal (some q) = "Hold") := by
  refine ⟨by decide, by with_unfolding_all decide, by decide,
    by with_unfolding_all decide, rfl, ?_, ?_, ?_, ?_, ?_⟩
  · intro q h₁
    simp only [getSignal]
    split_ifs <;> first | rfl | linarith
  · intro q h₁ h₂
    simp only [getSignal]
    split_ifs <;> first | rfl | linarith
  · intro q h₁
    simp only [getSignal]
    split_ifs <;> first | rfl | linarith
  · intro q h₁ h₂
    simp only [getSignal]
    split_ifs <;> first | rfl | linarith
  · intro q h₁ h₂
    simp only [getSignal]
    split_ifs <;> first | rfl | linarith

/-- Witness for C8: the Strong Buy band instantiated at gap 6. -/
theorem claim8_signal_bands_witness : getSignal (some 6) = "Strong Buy" :=
  claim8_signal_bands.2.2.2.2.2.1 6 (by norm_num)

/-- Band 1 of the market-cap bucketing. -/
lemma mcapBucket_micro (m : ℚ) (h : m < 500) :
    mcapBucket m = (20, 20, 25, "Micro Cap") := by
  unfold mcapBucket
  rw [if_pos h]

/-- Band 2 of the market-cap bucketing. -/
lemma mcapBucket_small (m : ℚ) (h₁ : 500 ≤ m) (h₂ : m < 5000) :
    mcapBucket m = (20, 20, 25, "Small Cap") := by
  unfold mcapBucket
  rw [if_neg (by linarith), if_pos h₂]

/-- Band 3 of the market-cap bucketing. -/
lemma mcapBucket_mid (m : ℚ) (h₁ : 5000 ≤ m) (h₂ : m < 20000) :
    mcapBucket m = (15, 18, 18, "Mid Cap") := by
  unfold mcapBucket
  rw [if_neg (by linarith), if_neg (by linarith), if_pos h₂]

/-- Band 4 of the market-cap bucketing. -/
lemma mcapBucket_largeMid (m : ℚ) (h₁ : 20000 ≤ m) (h₂ : m < 50000) :
    mcapBucket m = (15, 16, 15, "Large-Mid Cap") := by
  unfold mcapBucket
  rw [if_neg (by linarith), if_neg (by linarith), if_neg (by linarith), if_pos h₂]

/-- Band 5 of the market-cap bucketing. -/
lemma mcapBucket_large (m : ℚ) (h₁ : 50000 ≤ m) (h₂ : m < 200000) :
    mcapBucket m = (10, 15, 12, "Large Cap") := by
  unfold mcapBucket
  rw [if_neg (by linarith), if_neg (by linarith), if_neg (by linarith),
    if_neg (by linarith), if_pos h₂]

/-- Band 6 of the market-cap bucketing. -/
lemma mcapBucket_mega (m : ℚ) (h₁ : 200000 ≤ m) :
    mcapBucket m = (10, 13, 10, "Mega Cap") := by
  unfold mcapBucket
  rw [if_neg (by linarith), if_neg (by linarith), if_neg (by linarith),
    if_neg (by linarith), if_neg (by linarith)]

/-- C9: `getDefaultAssumptions` is a pure lookup — the market cap is
bucketed into six ordered bands with boundaries 500, 5000, 20000, 50000
and 200000, each band fixing the (forecastYears, discountRate,
expectedGrowth) triple; 499 and 500 fall in different bands; the sector
label is matched case-insensitively by substring containment against
the fixed table with the first match winning ("IT consumer" takes the
earlier "it" entry, not "consumer"); the multiple defaults to 20 on an
empty or unmatched label; and "Indian IT Services" resolves to the "it"
entry's multiple 22. -/
theorem claim9_default_assumptions :
    (∀ (m : ℚ) (s : String), m < 500 →
      (getDefaultAssumptions m s).forecastYears = 20 ∧
      (getDefaultAssumptions m s).discountRate = 20 ∧
      (getDefaultAssumptions m s).expectedPatCagr = 25 ∧
      (getDefaultAssumptions m s).category = "Micro Cap") ∧
    (∀ (m : ℚ) (s : String), 500 ≤ m → m < 5000 →
      (getDefaultAssumptions m s).forecastYears = 20 ∧
      (getDefaultAssumptions m s).discountRate = 20 ∧
      (getDefaultAssumptions m s).expectedPatCagr = 25 ∧
      (getDefaultAssumptions m s).category = "Small Cap") ∧
    (∀ (m : ℚ) (s : String), 5000 ≤ m → m < 20000 →
      (getDefaultAssumptions m s).forecastYears = 15 ∧
      (getDefaultAssumptions m s).discountRate = 18 ∧
      (getDefaultAssumptions m s).expectedPatCagr = 18 ∧
      (getDefaultAssumptions m s).category = "Mid Cap") ∧
    (∀ (m : ℚ) (s : String), 20000 ≤ m → m < 50000 →
      (getDefaultAssumptions m s).forecastYears = 15 ∧
      (getDefaultAssumptions m s).discountRate = 16 ∧
      (getDefaultAssumptions m s).expectedPatCagr = 15 ∧
      (getDefaultAssumptions m s).category = "Large-Mid Cap") ∧
    (∀ (m : ℚ) (s : String), 50000 ≤ m → m < 200000 →
      (getDefaultAssumptions m s).forecastYears = 10 ∧
      (getDefaultAssumptions m s).discountRate = 15 ∧
      (getDefaultAssumptions m s).expectedPatCagr = 12 ∧
      (getDefaultAssumptions m s).category = "Large Cap") ∧
    (∀ (m : ℚ) (s : String), 200000 ≤ m →
      (getDefaultAssumptions m s).forecastYears = 10 ∧
      (getDefaultAssumptions m s).discountRate = 13 ∧
      (getDefaultAssumptions m s).expectedPatCagr = 10 ∧
      (getDefaultAssumptions m s).category = "Mega Cap") ∧
    (getDefaultAssumptions 499 "").category ≠ (getDefaultAssumptions 500 "").category ∧
    (∀ m : ℚ, (getDefaultAssumptions m "").exitPE = 20) ∧
    (getDefaultAssumptions 1000 "zzz").exitPE = 20 ∧
    (getDefaultAssumptions 1000 "Indian IT Services").exitPE = 22 ∧
    (getDefaultAssumptions 1000 "IT consumer").exitPE = 22 ∧
    (∀ (m : ℚ) (s : String), s ≠ "" →
      (getDefaultAssumptions m s).exitPE =
        match SECTOR_PE.find? (fun kv => containsSeq (s.data.map Char.toLower) kv.1.data) with
        | some kv => kv.2
        | none => 20) := by
  refine ⟨?_, ?_, ?_, ?_, ?_, ?_, by decide, ?_, by with_unfolding_all decide,
    by with_unfolding_all decide, by with_unfolding_all decide, ?_⟩
  · intro m s h
    simp [getDefaultAssumptions, mcapBucket_micro m h]
  · intro m s h₁ h₂
    simp [getDefaultAssumptions, mcapBucket_small m h₁ h₂]
  · intro m s h₁ h₂
    simp [getDefaultAssumptions, mcapBucket_mid m h₁ h₂]
  · intro m s h₁ h₂
    simp [getDefaultAssumptions, mcapBucket_largeMid m h₁ h₂]
  · intro m s h₁ h₂
    simp [getDefaultAssumptions, mcapBucket_large m h₁ h₂]
  · intro m s h₁
    simp [getDefaultAssumptions, mcapBucket_mega m h₁]
  · intro m
    simp [getDefaultAssumptions, sectorExitPE]
  · intro m s hs
    show sectorExitPE s = _
    unfold sectorExitPE
    rw [if_neg hs]

/-- Witness for C9: the Micro Cap band instantiated at market cap 100. -/
theorem claim9_default_assumptions_witness :
    (getDefaultAssumptions 100 "x").category = "Micro Cap" :=
  (claim9_default_assumptions.1 100 "x" (by norm_num)).2.2.2

/-- When the horizon is non-positive the valuation is identically 0, so
every bisection step raises the lower bound toward the untouched upper
bound: the loop computes `roundTo2` of `high - (high-low)/2^(fuel+1)`. -/
lemma bisectLoop_degenerate_horizon (p r : ℚ) (n : ℤ) (pe t tol : ℚ)
    (hn : n ≤ 0) (ht : 0 < t) (htol : tol ≤ t) :
    ∀ (fuel : ℕ) (low high : ℚ),
      bisectLoop p r n pe t tol fuel low high =
        roundTo2 (high - (high - low) / 2 ^ (fuel + 1)) := by
  intro fuel
  induction fuel with
  | zero =>
    intro low high
    show roundTo2 ((low + high) / 2) = _
    congr 1
    ring
  | succ k ih =>
    intro low high
    have hval : calculateImpliedEquityValue p ((low + high) / 2) r n pe = 0 := by
      unfold calculateImpliedEquityValue
      rw [if_pos (Or.inr (Or.inr hn))]
    show (if |calculateImpliedEquityValue p ((low + high) / 2) r n pe - t| < tol then _
      else if calculateImpliedEquityValue p ((low + high) / 2) r n pe < t then _ else _) = _
    rw [hval, if_neg (by rw [abs_sub_comm, abs_of_nonneg (by linarith)]; linarith),
      if_pos (by linarith), ih ((low + high) / 2) high]
    congr 1
    field_simp
    ring

/-- C10: for positive profit, target and exit multiple but a
non-positive horizon, the solver does not return the sentinel: the
valuation is identically 0, every step raises the lower bound, and
after the 500-iteration budget the result rounds to the upper bracket
bound 200. -/
theorem claim10_degenerate_horizon_returns_200 (p t r : ℚ) (n : ℤ) (pe : ℚ)
    (hp : 0 < p) (ht : 0 < t) (hpe : 0 < pe) (hn : n ≤ 0) :
    solveImpliedGrowthRate p t r n pe = some 200 := by
  unfold solveImpliedGrowthRate
  rw [if_neg (by push_neg; exact ⟨hp, ht, hpe⟩)]
  rw [bisectLoop_degenerate_horizon p r n pe t (t * (1/100000)) hn ht (by linarith)]
  congr 1
  show roundTo2 (200 - (200 - (-90)) / 2 ^ (500 + 1)) = 200
  have hsmall : (29000 : ℚ) / 2 ^ 501 < 1/2 := by
    rw [div_lt_iff (by positivity)]
    norm_num
  have hposq : (0 : ℚ) < 29000 / 2 ^ 501 := by positivity
  unfold roundTo2 jsRound
  rw [show ((200 : ℚ) - (200 - (-90)) / 2 ^ (500 + 1)) * 100 + 1/2
      = 20000 + (1/2 - 29000 / 2 ^ 501) from by ring]
  rw [show ⌊(20000 : ℚ) + (1/2 - 29000 / 2 ^ 501)⌋ = (20000 : ℤ) from by
    rw [Int.floor_eq_iff]
    push_cast
    constructor <;> linarith]
  norm_num

/-- Witness for C10 at profit 1, target 1, exit multiple 5, horizon 0. -/
theorem claim10_degenerate_horizon_returns_200_witness :
    solveImpliedGrowthRate 1 1 10 0 5 = some 200 :=
  claim10_degenerate_horizon_returns_200 1 1 10 0 5 (by norm_num) (by norm_num)
    (by norm_num) le_rfl

/-- Finite geometric sum over `Icc 1 N`, in product form. -/
lemma sum_Icc_geom_mul (x : ℚ) (N : ℕ) :
    (∑ t in Finset.Icc 1 N, x ^ t) * (1 - x) = x * (1 - x ^ N) := by
  induction N with
  | zero => simp
  | succ k ih =>
    rw [Finset.sum_Icc_succ_top (by omega : 1 ≤ k + 1)]
    linear_combination ih

/-- In exact arithmetic the closed growing-annuity form agrees with the
geometric sum of discounted profits whenever `r ≠ g` and `1 + r ≠ 0`. -/
lemma closed_eq_geomSum (p g r : ℚ) (N : ℕ) (hr : 1 + r ≠ 0) (hrg : r ≠ g) :
    p * (1 + g) * ((1 - (1 + g) ^ N * ((1 + r) ^ N)⁻¹) / (r - g)) =
      p * ∑ t in Finset.Icc 1 N, ((1 + g) / (1 + r)) ^ t := by
  have h1x : 1 - (1 + g) / (1 + r) ≠ 0 := by
    rw [sub_ne_zero]
    intro h
    apply hrg
    field_simp at h
    linarith
  have hS : (∑ t in Finset.Icc 1 N, ((1 + g) / (1 + r)) ^ t)
      = (1 + g) / (1 + r) * (1 - ((1 + g) / (1 + r)) ^ N) / (1 - (1 + g) / (1 + r)) := by
    rw [eq_div_iff h1x]
    exact sum_Icc_geom_mul ((1 + g) / (1 + r)) N
  rw [hS, div_pow]
  have hrgne : r - g ≠ 0 := sub_ne_zero.mpr hrg
  field_simp
  ring

/-- Both branches of `calculateImpliedEquityValue` compute the same
discounted geometric sum; on non-degenerate inputs with `1 + r ≠ 0` the
valuation is that sum plus the discounted terminal value. -/
lemma calc_eq_sumForm (p gPct rPct : ℚ) (n : ℤ) (pe : ℚ)
    (hp : 0 < p) (hpe : 0 < pe) (hn : 0 < n) (hr : 1 + rPct / 100 ≠ 0) :
    calculateImpliedEquityValue p gPct rPct n pe =
      p * (∑ t in Finset.Icc 1 n.toNat, ((1 + gPct / 100) / (1 + rPct / 100)) ^ t)
        + p * (1 + gPct / 100) ^ n.toNat * pe / (1 + rPct / 100) ^ n.toNat := by
  unfold calculateImpliedEquityValue
  rw [if_neg (by push_neg; exact ⟨hp, hpe, hn⟩)]
  show (if |rPct / 100 - gPct / 100| < 1/10000
      then ∑ t in Finset.Icc 1 n.toNat, p * (1 + gPct / 100) ^ t / (1 + rPct / 100) ^ t
      else p * (1 + gPct / 100) *
        ((1 - (1 + gPct / 100) ^ n.toNat * ((1 + rPct / 100) ^ n.toNat)⁻¹)
          / (rPct / 100 - gPct / 100)))
    + p * (1 + gPct / 100) ^ n.toNat * pe / (1 + rPct / 100) ^ n.toNat = _
  have hsum : (∑ t in Finset.Icc 1 n.toNat, p * (1 + gPct / 100) ^ t / (1 + rPct / 100) ^ t)
      = p * ∑ t in Finset.Icc 1 n.toNat, ((1 + gPct / 100) / (1 + rPct / 100)) ^ t := by
    rw [Finset.mul_sum]
    refine Finset.sum_congr rfl fun t _ => ?_
    rw [div_pow]
    ring
  split_ifs with h
  · rw [hsum]
  · have hrg : rPct / 100 ≠ gPct / 100 := by
      intro heq
      apply h
      rw [heq, sub_self, abs_zero]
      norm_num
    rw [closed_eq_geomSum p (gPct / 100) (rPct / 100) n.toNat hr hrg]

/-- C4: for fixed positive profit, positive discount rate, integer
horizon ≥ 1 and positive exit multiple, the valuation is strictly
increasing in the growth-rate argument over `[-90, 200]`. -/
theorem claim4_strictly_increasing (p g₁ g₂ r : ℚ) (n : ℤ) (pe : ℚ)
    (hp : 0 < p) (hr : 0 < r) (hn : 1 ≤ n) (hpe : 0 < pe)
    (hg₁ : -90 ≤ g₁) (h₁₂ : g₁ < g₂) (hg₂ : g₂ ≤ 200) :
    calculateImpliedEquityValue p g₁ r n pe < calculateImpliedEquityValue p g₂ r n pe := by
  have hR : (0:ℚ) < 1 + r / 100 := by linarith
  rw [calc_eq_sumForm p g₁ r n pe hp hpe (by omega) (ne_of_gt hR),
      calc_eq_sumForm p g₂ r n pe hp hpe (by omega) (ne_of_gt hR)]
  have hNn : 1 ≤ n.toNat := by omega
  have hb₁ : (0:ℚ) ≤ 1 + g₁ / 100 := by linarith
  have hb₁₂ : 1 + g₁ / 100 < 1 + g₂ / 100 := by linarith
  have hx₀ : (0:ℚ) ≤ (1 + g₁ / 100) / (1 + r / 100) := div_nonneg hb₁ hR.le
  have hx : (1 + g₁ / 100) / (1 + r / 100) < (1 + g₂ / 100) / (1 + r / 100) :=
    (div_lt_div_right hR).mpr hb₁₂
  apply add_lt_add
  · refine mul_lt_mul_of_pos_left ?_ hp
    refine Finset.sum_lt_sum_of_nonempty (Finset.nonempty_Icc.mpr hNn) fun t htmem => ?_
    have ht1 : 1 ≤ t := (Finset.mem_Icc.mp htmem).1
    exact pow_lt_pow_left hx hx₀ (by omega)
  · have hpow := pow_lt_pow_left hb₁₂ hb₁ (show n.toNat ≠ 0 by omega)
    have hnum : p * (1 + g₁ / 100) ^ n.toNat * pe < p * (1 + g₂ / 100) ^ n.toNat * pe :=
      mul_lt_mul_of_pos_right (mul_lt_mul_of_pos_left hpow hp) hpe
    exact (div_lt_div_right (pow_pos hR n.toNat)).mpr hnum

/-- Witness for C4: growth 0 % versus 10 % at profit 1, discount 10 %,
horizon 1, exit multiple 1. -/
theorem claim4_strictly_increasing_witness :
    calculateImpliedEquityValue 1 0 10 1 1 < calculateImpliedEquityValue 1 10 10 1 1 :=
  claim4_strictly_increasing 1 0 10 10 1 1 (by norm_num) (by norm_num) (by norm_num)
    (by norm_num) (by norm_num) (by norm_num) (by norm_num)

/-- C7 counterexample: the claim asserts the valuation is non-negative
for every input, but at growth −200 % (so `1 + g = −1`), discount 0 %,
profit 1, horizon 1 and exit multiple 1 the source formulas produce −2. -/
theorem claim7_negative_value_cex :
    calculateImpliedEquityValue 1 (-200) 0 1 1 < 0 := by
  with_unfolding_all decide

/-- C7 (amended): the valuation is non-negative for every input with
growth rate ≥ −100 and discount rate > −100 (so that `1 + g ≥ 0` and
`1 + r > 0`); below −100 % growth the sign of `(1+g)^n` alternates and
the result can be negative. -/
theorem claim7_nonneg_amended (p g r : ℚ) (n : ℤ) (pe : ℚ)
    (hg : -100 ≤ g) (hr : -100 < r) :
    0 ≤ calculateImpliedEquityValue p g r n pe := by
  by_cases hdeg : p ≤ 0 ∨ pe ≤ 0 ∨ n ≤ 0
  · unfold calculateImpliedEquityValue
    rw [if_pos hdeg]
  · push_neg at hdeg
    obtain ⟨hp, hpe, hn⟩ := hdeg
    have hR : (0:ℚ) < 1 + r / 100 := by linarith
    rw [calc_eq_sumForm p g r n pe hp hpe hn (ne_of_gt hR)]
    have hb : (0:ℚ) ≤ 1 + g / 100 := by linarith
    have hx : (0:ℚ) ≤ (1 + g / 100) / (1 + r / 100) := div_nonneg hb hR.le
    have h₁ : (0:ℚ) ≤ p * ∑ t in Finset.Icc 1 n.toNat, ((1 + g / 100) / (1 + r / 100)) ^ t :=
      mul_nonneg hp.le (Finset.sum_nonneg fun t _ => pow_nonneg hx t)
    have h₂ : (0:ℚ) ≤ p * (1 + g / 100) ^ n.toNat * pe / (1 + r / 100) ^ n.toNat :=
      div_nonneg (mul_nonneg (mul_nonneg hp.le (pow_nonneg hb _)) hpe.le)
        (pow_nonneg hR.le _)
    linarith

/-- Witness for C7 at profit 1, growth 10 %, discount 15 %, horizon 5,
exit multiple 20. -/
theorem claim7_nonneg_amended_witness :
    0 ≤ calculateImpliedEquityValue 1 10 15 5 20 :=
  claim7_nonneg_amended 1 10 15 5 20 (by norm_num) (by norm_num)

/-- The source bisection loop coincides with the specification's
description of it, for every fuel and bracket, when the tolerance is
`target * 1e-5`. -/
lemma bisectLoop_eq_specBisection (p r : ℚ) (n : ℤ) (pe t : ℚ) :
    ∀ (fuel : ℕ) (low high : ℚ),
      bisectLoop p r n pe t (t * (1/100000)) fuel low high =
        specBisection p r n pe t fuel low high := by
  intro fuel
  induction fuel with
  | zero => intro low high; rfl
  | succ k ih =>
    intro low high
    simp only [bisectLoop, specBisection]
    split_ifs <;> first | rfl | apply ih

/-- C2: on non-degenerate inputs the solver performs exactly the
bisection the specification describes — bracket `[-90, 200]`, at most
500 iterations, midpoint evaluation against tolerance `target·1e-5`
with early exit returning the midpoint rounded to 2 decimals, bracket
update by comparison with the target, and the rounded midpoint of the
final bracket (not an error) on exhaustion. -/
theorem claim2_solver_is_spec_bisection (p t r : ℚ) (n : ℤ) (pe : ℚ)
    (hp : 0 < p) (ht : 0 < t) (hpe : 0 < pe) :
    solveImpliedGrowthRate p t r n pe =
      some (specBisection p r n pe t 500 (-90) 200) := by
  unfold solveImpliedGrowthRate
  rw [if_neg (by push_neg; exact ⟨hp, ht, hpe⟩)]
  rw [bisectLoop_eq_specBisection]

/-- Witness for C2 at profit 2, target 3, discount 10 %, horizon 5,
exit multiple 4. -/
theorem claim2_solver_is_spec_bisection_witness :
    solveImpliedGrowthRate 2 3 10 5 4 = some (specBisection 2 10 5 4 3 500 (-90) 200) :=
  claim2_solver_is_spec_bisection 2 3 10 5 4 (by norm_num) (by norm_num) (by norm_num)

/-- If the exact-midpoint loop accepts `m`, the valuation at `m` is
within tolerance of the target. -/
lemma bisectLoopExact_sound (p r : ℚ) (n : ℤ) (pe t tol : ℚ) :
    ∀ (fuel : ℕ) (low high m : ℚ),
      bisectLoopExact p r n pe t tol fuel low high = some m →
      |calculateImpliedEquityValue p m r n pe - t| < tol := by
  intro fuel
  induction fuel with
  | zero =>
    intro low high m h
    exact absurd h (by simp [bisectLoopExact])
  | succ k ih =>
    intro low high m h
    simp only [bisectLoopExact] at h
    split_ifs at h with h₁ h₂
    · rw [Option.some_inj] at h
      subst h
      exact h₁
    · exact ih _ _ _ h
    · exact ih _ _ _ h

/-- If the exact-midpoint loop accepts `m`, the source loop returns `m`
rounded to two decimals. -/
lemma bisectLoopExact_to_loop (p r : ℚ) (n : ℤ) (pe t tol : ℚ) :
    ∀ (fuel : ℕ) (low high m : ℚ),
      bisectLoopExact p r n pe t tol fuel low high = some m →
      bisectLoop p r n pe t tol fuel low high = roundTo2 m := by
  intro fuel
  induction fuel with
  | zero =>
    intro low high m h
    exact absurd h (by simp [bisectLoopExact])
  | succ k ih =>
    intro low high m h
    simp only [bisectLoopExact] at h
    simp only [bisectLoop]
    split_ifs at h with h₁ h₂
    · rw [Option.some_inj] at h
      subst h
      rw [if_pos h₁]
    · rw [if_neg h₁, if_pos h₂]
      exact ih _ _ _ h
    · rw [if_neg h₁, if_neg h₂]
      exact ih _ _ _ h

/-- Unfolding of one bisection iteration, with the let-bound midpoint
and valuation substituted. -/
lemma bisectLoop_succ_eq (p r : ℚ) (n : ℤ) (pe t tol : ℚ) (fuel : ℕ) (low high : ℚ) :
    bisectLoop p r n pe t tol (fuel + 1) low high =
      if |calculateImpliedEquityValue p ((low + high) / 2) r n pe - t| < tol
      then roundTo2 ((low + high) / 2)
      else if calculateImpliedEquityValue p ((low + high) / 2) r n pe < t
      then bisectLoop p r n pe t tol fuel ((low + high) / 2) high
      else bisectLoop p r n pe t tol fuel low ((low + high) / 2) := rfl

/-- Unfolding of one exact-midpoint bisection iteration. -/
lemma bisectLoopExact_succ_eq (p r : ℚ) (n : ℤ) (pe t tol : ℚ) (fuel : ℕ) (low high : ℚ) :
    bisectLoopExact p r n pe t tol (fuel + 1) low high =
      if |calculateImpliedEquityValue p ((low + high) / 2) r n pe - t| < tol
      then some ((low + high) / 2)
      else if calculateImpliedEquityValue p ((low + high) / 2) r n pe < t
      then bisectLoopExact p r n pe t tol fuel ((low + high) / 2) high
      else bisectLoopExact p r n pe t tol fuel low ((low + high) / 2) := rfl

/-- Evaluation form of the valuation on the closed-form branch, for
concrete non-degenerate inputs with `|r - g| ≥ 1e-4`. -/
lemma calc_closed_concrete (p gPct rPct : ℚ) (n : ℤ) (pe : ℚ)
    (hp : 0 < p) (hpe : 0 < pe) (hn : 1 ≤ n)
    (h : ¬ |rPct / 100 - gPct / 100| < 1/10000) :
    calculateImpliedEquityValue p gPct rPct n pe =
      p * (1 + gPct / 100) *
        ((1 - (1 + gPct / 100) ^ n.toNat * ((1 + rPct / 100) ^ n.toNat)⁻¹)
          / (rPct / 100 - gPct / 100))
      + p * (1 + gPct / 100) ^ n.toNat * pe / (1 + rPct / 100) ^ n.toNat := by
  unfold calculateImpliedEquityValue
  rw [if_neg (by push_neg; exact ⟨hp, hpe, by omega⟩)]
  show (if |rPct / 100 - gPct / 100| < 1/10000
      then ∑ t in Finset.Icc 1 n.toNat, p * (1 + gPct / 100) ^ t / (1 + rPct / 100) ^ t
      else p * (1 + gPct / 100) *
        ((1 - (1 + gPct / 100) ^ n.toNat * ((1 + rPct / 100) ^ n.toNat)⁻¹)
          / (rPct / 100 - gPct / 100)))
    + p * (1 + gPct / 100) ^ n.toNat * pe / (1 + rPct / 100) ^ n.toNat = _
  rw [if_neg h]

set_option maxRecDepth 4000 in
/-- C3 counterexample: with profit 100, discount 15 %, horizon 10, exit
multiple 20 and target equal to the valuation at growth 73.125 % (the
bisection midpoint reached at iteration 4, inside `[-90, 200]`), the
solver's tolerance test accepts the exact midpoint 73.125 but returns
it rounded to 73.13, and the valuation at 73.13 misses the target by
far more than the solver's tolerance `target·1e-5`. -/
theorem claim3_roundtrip_cex :
    calculateImpliedEquityValue 100 (585/8) 15 10 20
      = 1524462367534536392164616925/11120344428124982738944 ∧
    solveImpliedGrowthRate 100 (1524462367534536392164616925/11120344428124982738944) 15 10 20
      = some (7313/100) ∧
    ¬ |calculateImpliedEquityValue 100 (7313/100) 15 10 20
          - (1524462367534536392164616925/11120344428124982738944 : ℚ)|
        < (1524462367534536392164616925/11120344428124982738944 : ℚ) * (1/100000) := by
  have hv55 : calculateImpliedEquityValue 100 55 15 10 20
      = 1940809762071373400/41426511213649 := by
    rw [calc_closed_concrete 100 55 15 10 20 (by norm_num) (by norm_num) (by norm_num)
      (by rw [abs_sub_lt_iff]; norm_num)]
    rw [show ((10:ℤ).toNat) = 10 from rfl]
    norm_num
  have hv1275 : calculateImpliedEquityValue 100 (255/2) 15 10 20
      = 21437376120824175568875/10605186870694144 := by
    rw [calc_closed_concrete 100 (255/2) 15 10 20 (by norm_num) (by norm_num) (by norm_num)
      (by rw [abs_sub_lt_iff]; norm_num)]
    rw [show ((10:ℤ).toNat) = 10 from rfl]
    norm_num
  have hv9125 : calculateImpliedEquityValue 100 (365/4) 15 10 20
      = 3952718156066260295147625/10859711355590803456 := by
    rw [calc_closed_concrete 100 (365/4) 15 10 20 (by norm_num) (by norm_num) (by norm_num)
      (by rw [abs_sub_lt_iff]; norm_num)]
    rw [show ((10:ℤ).toNat) = 10 from rfl]
    norm_num
  have hv585 : calculateImpliedEquityValue 100 (585/8) 15 10 20
      = 1524462367534536392164616925/11120344428124982738944 := by
    rw [calc_closed_concrete 100 (585/8) 15 10 20 (by norm_num) (by norm_num) (by norm_num)
      (by rw [abs_sub_lt_iff]; norm_num)]
    rw [show ((10:ℤ).toNat) = 10 from rfl]
    norm_num
  have hv7313 : calculateImpliedEquityValue 100 (7313/100) 15 10 20
      = 55475267098117674230297710923377761052077329/404555773570791015625000000000000000000 := by
    rw [calc_closed_concrete 100 (7313/100) 15 10 20 (by norm_num) (by norm_num) (by norm_num)
      (by rw [abs_sub_lt_iff]; norm_num)]
    rw [show ((10:ℤ).toNat) = 10 from rfl]
    norm_num
  refine ⟨hv585, ?_, by rw [hv7313, abs_sub_lt_iff]; norm_num⟩
  unfold solveImpliedGrowthRate
  rw [if_neg (by norm_num)]
  congr 1
  rw [show (500:ℕ) = 499 + 1 from rfl, bisectLoop_succ_eq]
  rw [show ((-90:ℚ) + 200) / 2 = 55 from by norm_num]
  rw [if_neg (by rw [hv55, abs_sub_lt_iff]; norm_num), if_pos (by rw [hv55]; norm_num)]
  rw [show (499:ℕ) = 498 + 1 from rfl, bisectLoop_succ_eq]
  rw [show ((55:ℚ) + 200) / 2 = 255/2 from by norm_num]
  rw [if_neg (by rw [hv1275, abs_sub_lt_iff]; norm_num), if_neg (by rw [hv1275]; norm_num)]
  rw [show (498:ℕ) = 497 + 1 from rfl, bisectLoop_succ_eq]
  rw [show ((55:ℚ) + 255/2) / 2 = 365/4 from by norm_num]
  rw [if_neg (by rw [hv9125, abs_sub_lt_iff]; norm_num), if_neg (by rw [hv9125]; norm_num)]
  rw [show (497:ℕ) = 496 + 1 from rfl, bisectLoop_succ_eq]
  rw [show ((55:ℚ) + 365/4) / 2 = 585/8 from by norm_num]
  rw [if_pos (by rw [hv585, sub_self, abs_zero]; norm_num)]
  unfold roundTo2 jsRound
  rw [show (585/8 : ℚ) * 100 + 1/2 = ((7313 : ℤ) : ℚ) from by norm_num, Int.floor_intCast]
  norm_num

/-- C3 (amended): the round-trip holds for the growth rate the solver
accepts before rounding — whenever some iteration meets the tolerance
at exact midpoint `m`, the valuation at `m` is within `target·1e-5` of
the target and the solver returns exactly `m` rounded to two decimals;
the rounded return value itself can miss the tolerance. -/
theorem claim3_roundtrip_amended (p t r : ℚ) (n : ℤ) (pe m : ℚ)
    (hp : 0 < p) (ht : 0 < t) (hpe : 0 < pe)
    (hex : bisectLoopExact p r n pe t (t * (1/100000)) 500 (-90) 200 = some m) :
    solveImpliedGrowthRate p t r n pe = some (roundTo2 m) ∧
    |calculateImpliedEquityValue p m r n pe - t| < t * (1/100000) := by
  constructor
  · unfold solveImpliedGrowthRate
    rw [if_neg (by push_neg; exact ⟨hp, ht, hpe⟩)]
    rw [bisectLoopExact_to_loop p r n pe t (t * (1/100000)) 500 (-90) 200 m hex]
  · exact bisectLoopExact_sound p r n pe t (t * (1/100000)) 500 (-90) 200 m hex

set_option maxRecDepth 4000 in
/-- Witness for C3: target equal to the valuation at the very first
midpoint 55, accepted at iteration 1. -/
theorem claim3_roundtrip_amended_witness :
    solveImpliedGrowthRate 100 (calculateImpliedEquityValue 100 55 15 10 20) 15 10 20
      = some (roundTo2 55) ∧
    |calculateImpliedEquityValue 100 55 15 10 20
        - calculateImpliedEquityValue 100 55 15 10 20|
      < calculateImpliedEquityValue 100 55 15 10 20 * (1/100000) := by
  have hv : calculateImpliedEquityValue 100 55 15 10 20
      = 1940809762071373400/41426511213649 := by
    rw [calc_closed_concrete 100 55 15 10 20 (by norm_num) (by norm_num) (by norm_num)
      (by rw [abs_sub_lt_iff]; norm_num)]
    rw [show ((10:ℤ).toNat) = 10 from rfl]
    norm_num
  refine claim3_roundtrip_amended 100 (calculateImpliedEquityValue 100 55 15 10 20)
    15 10 20 55 (by norm_num) (by rw [hv]; norm_num) (by norm_num) ?_
  rw [show (500:ℕ) = 499 + 1 from rfl, bisectLoopExact_succ_eq]
  rw [show ((-90:ℚ) + 200) / 2 = 55 from by norm_num]
  rw [if_pos (by rw [sub_self, abs_zero, hv]; norm_num)]

end ValueLens
